import Mathlib

/-!
Verification of the DBLive nearest-bus-stops scripts.

The repository is a family of browser scripts that rank bus stops by
haversine distance, resolve which GTFS services run today, and merge
scheduled arrivals with a realtime feed.  This file is a shallow embedding
of the parts of that code the claims talk about:

* JavaScript numbers are modelled as exact rationals (`Q`, unnormalised
  `Int`/`Nat` pairs), extended with `NaN` and the infinities (`JsNum`);
  every value the claims exercise is exactly representable.
* Dates are epoch milliseconds (`Int`); `Date.UTC` is the standard
  civil-from-days conversion; the local timezone is taken to be UTC.
* DOM and network effects are modelled as explicit inputs (what each fetch
  returned) and outputs (a trace of the messages, fetches and renders a run
  performs).
-/

/-! ## Exact rational arithmetic

`Q` is an unnormalised fraction; every constructor used keeps the
denominator positive.  Comparisons cross-multiply, so they are valid
whenever both denominators are positive. -/

structure Q where
  n : Int
  d : Nat
deriving DecidableEq, Repr

def qI (n : Int) : Q := ⟨n, 1⟩

def qHalf : Q := ⟨1, 2⟩

def qAdd (a b : Q) : Q := ⟨a.n * b.d + b.n * a.d, a.d * b.d⟩

def qSub (a b : Q) : Q := ⟨a.n * b.d - b.n * a.d, a.d * b.d⟩

def qMul (a b : Q) : Q := ⟨a.n * b.n, a.d * b.d⟩

def qDiv (a b : Q) : Q :=
  if b.n < 0 then ⟨-(a.n * b.d), a.d * b.n.natAbs⟩ else ⟨a.n * b.d, a.d * b.n.natAbs⟩

def qLe (a b : Q) : Bool := a.n * b.d ≤ b.n * a.d

def qLt (a b : Q) : Bool := a.n * b.d < b.n * a.d

/-- Mathematical floor of a fraction with positive denominator. -/
def qFloor (a : Q) : Int := a.n.fdiv a.d

/-- Truncation toward zero, as JavaScript bitwise/`%` semantics use. -/
def qTrunc (a : Q) : Int := a.n.tdiv a.d

/-- `Math.round` on an exact value: floor of the value plus one half. -/
def qRound (a : Q) : Int := qFloor (qAdd a qHalf)

/-- JavaScript `%` on numbers: `a - b * trunc(a / b)`. -/
def qFmod (a b : Q) : Q := qSub a (qMul b (qI (qTrunc (qDiv a b))))

/-! ## Strings: code-unit comparison, splitting, `parseInt` -/

/-- Lexicographic code-unit `<` on character lists: what JavaScript `<` on
strings computes for the ASCII data in this repository. -/
def strLtChars : List Char → List Char → Bool
  | [], [] => false
  | [], _ :: _ => true
  | _ :: _, [] => false
  | a :: as, b :: bs => if a < b then true else if b < a then false else strLtChars as bs

def jsStrLe (a b : String) : Bool := !(strLtChars b.data a.data)

/-- `String.prototype.split` with a one-character separator. -/
def splitChar (sep : Char) : List Char → List (List Char)
  | [] => [[]]
  | c :: rest =>
    let r := splitChar sep rest
    if c = sep then [] :: r
    else
      match r with
      | h :: t => (c :: h) :: t
      | [] => [[c]]

def digitsToNat (cs : List Char) : Nat :=
  cs.foldl (fun acc c => acc * 10 + (c.toNat - 48)) 0

/-- `parseInt(s, 10)` on the strings this code feeds it: the value of the
leading run of digits, `none` for `NaN` (no leading digit). -/
def jsParseIntChars (cs : List Char) : Option Int :=
  match cs.takeWhile Char.isDigit with
  | [] => none
  | ds => some (digitsToNat ds)

def jsParseIntStr (s : String) : Option Int := jsParseIntChars s.data

/-- `parseInt(s, 10) || 0`: `NaN` collapses to `0`. -/
def jsParseIntOr0 (s : String) : Int := (jsParseIntStr s).getD 0

/-- The test `/^\d{8}$/.test(s)`. -/
def validYYYYMMDD (s : String) : Bool :=
  s.data.length = 8 && s.data.all Char.isDigit

/-! ## Civil dates and epoch milliseconds -/

/-- Days from 1970-01-01 to year `y`, month `m` (1..12), day `d`, proleptic
Gregorian: the standard era-based conversion `Date.UTC` performs. -/
def daysFromCivil (y m d : Int) : Int :=
  let y2 := y - (if m ≤ 2 then 1 else 0)
  let era := (if 0 ≤ y2 then y2 else y2 - 399).tdiv 400
  let yoe := y2 - era * 400
  let mp := (m + 9).tmod 12
  let doy := (153 * mp + 2).tdiv 5 + d - 1
  let doe := yoe * 365 + yoe.tdiv 4 - yoe.tdiv 100 + doy
  era * 146097 + doe - 719468

/-- Inverse of `daysFromCivil`: the `(y, m, d)` a day number prints as. -/
def civilFromDays (z0 : Int) : Int × Int × Int :=
  let z := z0 + 719468
  let era := (if 0 ≤ z then z else z - 146096).tdiv 146097
  let doe := z - era * 146097
  let yoe := (doe - doe.tdiv 1460 + doe.tdiv 36524 - doe.tdiv 146096).tdiv 365
  let y := yoe + era * 400
  let doy := doe - (365 * yoe + yoe.tdiv 4 - yoe.tdiv 100)
  let mp := (5 * doy + 2).tdiv 153
  let d := doy - (153 * mp + 2).tdiv 5 + 1
  let m := if mp < 10 then mp + 3 else mp - 9
  (if m ≤ 2 then y + 1 else y, m, d)

def epochMsOfYMD (y m d : Int) : Int := daysFromCivil y m d * 86400000

/-- Split an 8-digit `yyyymmdd` numeral into epoch milliseconds at midnight. -/
def epochMsOfYYYYMMDD (v : Nat) : Int :=
  epochMsOfYMD (v / 10000) (v / 100 % 100) (v % 100)

/-- `Date.prototype.getDay` (0 = Sunday) of a `yyyymmdd` numeral; day 0 of
the epoch was a Thursday. -/
def dayOfWeekN (v : Nat) : Nat :=
  ((daysFromCivil (v / 10000) (v / 100 % 100) (v % 100) + 4).emod 7).toNat

def padNum2 (n : Int) : String := if n < 10 then "0" ++ toString n else toString n

/-- The ISO date string of a valid date with the dashes removed, as
`toISOString().slice(0,10)` followed by the dash-stripping replace
computes: the `yyyymmdd` string of its UTC calendar day. -/
def dayStringOfEpochMs (t : Int) : String :=
  let c := civilFromDays (t.fdiv 86400000)
  toString c.1 ++ padNum2 c.2.1 ++ padNum2 c.2.2

lemma daysFromCivil_epoch : daysFromCivil 1970 1 1 = 0 := by decide

lemma dayOfWeekN_20240704 : dayOfWeekN 20240704 = 4 := by decide

lemma dayOfWeekN_20240703 : dayOfWeekN 20240703 = 3 := by decide

lemma dayOfWeekN_20240705 : dayOfWeekN 20240705 = 5 := by decide

lemma dayStringOfEpochMs_zero : dayStringOfEpochMs 0 = "19700101" := by decide

/-! ## Service-day resolution, variant `part_004` (`serviceActiveToday`)

`serviceMap` is the in-memory map built from `calendar.txt` (weekday flags
plus a date range, both dates as `yyyymmdd` numerals); `exceptionsMap` maps
a service id and a calendar day to the `exception_type` string of a
`calendar_dates.txt` row for exactly that day.  The reference instant is a
calendar day `todayN` plus `msOfDay`, the time of day in milliseconds; the
source compares full `Date` values against the midnight `Date`s parsed from
`start_date`/`end_date`, which at the level of days is the comparison
written here. -/

structure CalRow where
  sun : Bool
  mon : Bool
  tue : Bool
  wed : Bool
  thu : Bool
  fri : Bool
  sat : Bool
  startN : Nat
  endN : Nat
deriving DecidableEq, Repr

def weekdayFlagAt (c : CalRow) : Nat → Bool
  | 0 => c.sun
  | 1 => c.mon
  | 2 => c.tue
  | 3 => c.wed
  | 4 => c.thu
  | 5 => c.fri
  | 6 => c.sat
  | _ => false

def serviceActiveToday (serviceMap : String → Option CalRow)
    (exceptionsMap : String → Nat → Option String)
    (todayN : Nat) (msOfDay : Nat) (sid : String) : Bool :=
  match serviceMap sid with
  | none => false
  | some svc =>
    if todayN < svc.startN || (svc.endN < todayN || (todayN == svc.endN && 0 < msOfDay)) then
      false
    else if !(weekdayFlagAt svc (dayOfWeekN todayN)) then
      false
    else
      match exceptionsMap sid todayN with
      | some t => if t = "" then true else t = "1"
      | none => true

/-! ## Service-day resolution, variant `part_002` (`loadGTFSMapping`)

The calendar rows keep `start_date`/`end_date` as strings and the code
compares them against the `yyyymmdd` string of today; exception types were
parsed with `parseInt`.  Membership of a service id in the resulting
`validServiceIds` set is: the base calendar decision, overridden by an
exception row dated today (type 1 adds, type 2 removes). -/

structure Cal2 where
  monday : Bool
  tuesday : Bool
  wednesday : Bool
  thursday : Bool
  friday : Bool
  saturday : Bool
  sunday : Bool
  startD : String
  endD : String
deriving DecidableEq, Repr

def dayFlag2 (c : Cal2) : Nat → Bool
  | 0 => c.sunday
  | 1 => c.monday
  | 2 => c.tuesday
  | 3 => c.wednesday
  | 4 => c.thursday
  | 5 => c.friday
  | 6 => c.saturday
  | _ => false

def calendarBase_p2 (calendarMap : String → Option Cal2) (todayStr : String)
    (sid : String) : Bool :=
  match calendarMap sid with
  | some v =>
    jsStrLe v.startD todayStr && jsStrLe todayStr v.endD &&
      dayFlag2 v (dayOfWeekN (digitsToNat todayStr.data))
  | none => false

def validServiceToday_p2 (calendarMap : String → Option Cal2)
    (exceptions : String → String → Option Int) (todayStr : String)
    (sid : String) : Bool :=
  let base := calendarBase_p2 calendarMap todayStr sid
  match exceptions sid todayStr with
  | some e => if e = 1 then true else if e = 2 then false else base
  | none => base

/-- The claim, as the spec words it, over the `part_004` data model: active
iff the weekly flag for the weekday is set, the day is inside the closed
range, and no removal exception is dated today; an addition exception dated
today activates the service regardless of the weekly rule. -/
def claimServiceActive (serviceMap : String → Option CalRow)
    (exceptionsMap : String → Nat → Option String)
    (todayN : Nat) (sid : String) : Bool :=
  exceptionsMap sid todayN == some "1" ||
    (match serviceMap sid with
     | some svc =>
       weekdayFlagAt svc (dayOfWeekN todayN) &&
         (decide (svc.startN ≤ todayN) && decide (todayN ≤ svc.endN)) &&
         !(exceptionsMap sid todayN == some "2")
     | none => false)

/-! ## The app4 merge: schedule rows, realtime lookup, `mergeScheduledWithRT`

A schedule row is one element of a per-stop JSON file; every field a
JavaScript object may simply lack is an `Option`.  The realtime lookup
`rtByTrip` is the map `buildRtLookup` returns: per trip a `start_date`,
some metadata, and per stop (keyed by stop id or stop sequence, both
strings as JavaScript object keys are) an optional absolute arrival epoch
and an optional delay in seconds. -/

structure SchedRow where
  trip_id : Option String := none
  arrival_time : Option String := none
  time : Option String := none
  departure_time : Option String := none
  stop_id : Option String := none
  StopId : Option String := none
  stop : Option String := none
  stop_sequence : Option String := none
  stop_seq : Option String := none
  seq : Option String := none
  service_id : Option String := none
  route_short : Option String := none
  trip_headsign : Option String := none
deriving DecidableEq, Repr

/-- JavaScript string truthiness: the empty string and a missing value are
both falsy. -/
def jsTruthy : Option String → Option String
  | some s => if s = "" then none else some s
  | none => none

/-- `r.arrival_time || r.time || r.departure_time || ''`. -/
def schedStrOf (r : SchedRow) : String :=
  match jsTruthy r.arrival_time with
  | some s => s
  | none =>
    match jsTruthy r.time with
    | some s => s
    | none =>
      match jsTruthy r.departure_time with
      | some s => s
      | none => ""

/-- `r.stop_id || r.StopId || r.stop || null`. -/
def stopKeyOf (r : SchedRow) : Option String :=
  (jsTruthy r.stop_id).or ((jsTruthy r.StopId).or (jsTruthy r.stop))

/-- `r.stop_sequence || r.stop_seq || r.seq`. -/
def seqKeyOf (r : SchedRow) : Option String :=
  (jsTruthy r.stop_sequence).or ((jsTruthy r.stop_seq).or (jsTruthy r.seq))

structure RtStopInfo where
  arrivalUnix : Option Int := none
  delay : Option Int := none
deriving DecidableEq, Repr

structure RtTrip where
  start_date : Option String := none
  route_id : Option String := none
  trip_headsign : Option String := none
  vehicle : Option String := none
  stops : List (String × RtStopInfo) := []
deriving DecidableEq, Repr

def rtStopLookup (rtv : RtTrip) (k : String) : Option RtStopInfo :=
  (rtv.stops.find? (fun p => p.1 == k)).map (·.2)

/-- The stop-matching of the merge: exact stop id first, stop sequence as
the fallback. -/
def findRtStop (rtv : RtTrip) (r : SchedRow) : Option RtStopInfo :=
  match (match stopKeyOf r with
         | some k => rtStopLookup rtv k
         | none => none) with
  | some s => some s
  | none =>
    match seqKeyOf r with
    | some k => rtStopLookup rtv k
    | none => none

/-- `timePartsToDate(dateYYYYMMDD, hhmmss)`: anchor at UTC midnight of the
given `yyyymmdd` day (of today when absent or not 8 digits), then add the
split `HH:MM:SS` parts.  A string without at least two `:`-separated parts
makes the JavaScript date invalid; that is `none` here. -/
def timePartsToDate (dateYYYYMMDD : Option String) (todayN : Nat)
    (hhmmss : String) : Option Int :=
  let base : Int :=
    match dateYYYYMMDD with
    | some s =>
      if validYYYYMMDD s then epochMsOfYYYYMMDD (digitsToNat s.data)
      else epochMsOfYYYYMMDD todayN
    | none => epochMsOfYYYYMMDD todayN
  match (splitChar ':' hhmmss.data).map (fun cs => (jsParseIntChars cs).getD 0) with
  | h :: mi :: rest => some (base + h * 3600000 + mi * 60000 + rest.headD 0 * 1000)
  | _ => none

/-- One output row of the merge: the spread copy of its schedule row plus
the realtime annotations.  An invalid JavaScript date (`NaN` time value) is
`none`; in the one corner where the source would instead throw while
formatting such a date into `merged.day` (a malformed scheduled time
together with a matched delay-only realtime stop and no trip start date)
the model records `none` and carries on. -/
structure MergedRow where
  src : SchedRow
  realtime : Option Int := none
  day : Option String := none
  rt_found : Bool := false
  delay_seconds : Option Int := none
  rt_meta : Option (Option String × Option String × Option String) := none
  scheduledDate : Option Int := none
  withinWindow : Bool := false
deriving DecidableEq, Repr

def WINDOW_PAST_MIN : Int := 30

def WINDOW_FUTURE_MIN : Int := 60

/-- The delay-only leg of the merge: the predicted time is the scheduled
base date plus `delay` seconds, the day comes from the trip start date
when present and from the computed base date otherwise. -/
def mergeDelayOnly (rt : RtTrip) (todayN : Nat) (scheduledStr : String)
    (r : SchedRow) (d0 : Int) : MergedRow :=
  { src := r, rt_found := true,
    realtime := (timePartsToDate rt.start_date todayN scheduledStr).map
      (fun b => b + d0 * 1000),
    day :=
      match jsTruthy rt.start_date with
      | some sd => some sd
      | none => (timePartsToDate rt.start_date todayN scheduledStr).map dayStringOfEpochMs,
    delay_seconds := some d0 }

/-- The `if/else` chain on a matched realtime stop record: a truthy
absolute arrival epoch wins, else a non-null delay, else the trip is
marked found with no times. -/
def mergeRtStopPart (rt : RtTrip) (todayN : Nat) (scheduledStr : String)
    (r : SchedRow) (rtStop : RtStopInfo) : MergedRow :=
  match rtStop.arrivalUnix, rtStop.delay with
  | some u, dl =>
    if u ≠ 0 then
      { src := r, rt_found := true, realtime := some u,
        day := some ((jsTruthy rt.start_date).getD (dayStringOfEpochMs u)),
        delay_seconds :=
          match dl with
          | some d0 => some d0
          | none =>
            (timePartsToDate rt.start_date todayN scheduledStr).map
              (fun s => qRound (qDiv (qI (u - s)) (qI 1000))) }
    else
      match dl with
      | some d0 => mergeDelayOnly rt todayN scheduledStr r d0
      | none =>
        { src := r, rt_found := true, realtime := none,
          day := jsTruthy rt.start_date, delay_seconds := none }
  | none, some d0 => mergeDelayOnly rt todayN scheduledStr r d0
  | none, none =>
    { src := r, rt_found := true, realtime := none,
      day := jsTruthy rt.start_date, delay_seconds := none }

/-- The whole realtime branch of the merge loop body. -/
def mergeRtBranch (rt : RtTrip) (todayN : Nat) (scheduledStr : String)
    (r : SchedRow) : MergedRow :=
  let m2 : MergedRow :=
    match findRtStop rt r with
    | some rtStop => mergeRtStopPart rt todayN scheduledStr r rtStop
    | none => { src := r, rt_found := true, day := jsTruthy rt.start_date }
  { m2 with rt_meta := some (rt.route_id, rt.trip_headsign, rt.vehicle) }

/-- `trip_id && rtByTrip[trip_id] ? rtByTrip[trip_id] : null`. -/
def rtTripOf (rtByTrip : String → Option RtTrip) (r : SchedRow) : Option RtTrip :=
  match jsTruthy r.trip_id with
  | some tid => rtByTrip tid
  | none => none

def mergeBase (rtOpt : Option RtTrip) (todayN : Nat) (scheduledStr : String)
    (r : SchedRow) : MergedRow :=
  match rtOpt with
  | some rt => mergeRtBranch rt todayN scheduledStr r
  | none => { src := r, day := jsTruthy r.service_id }

/-- The per-row body of the `mergeScheduledWithRT` loop: `none` exactly for
the `continue` on an empty scheduled-time string. -/
def mergeAnnotate (rtByTrip : String → Option RtTrip) (now : Int) (todayN : Nat)
    (r : SchedRow) : Option MergedRow :=
  let scheduledStr := schedStrOf r
  if scheduledStr = "" then none
  else
    let rtOpt := rtTripOf rtByTrip r
    let m1 := mergeBase rtOpt todayN scheduledStr r
    let sd : Option Int :=
      timePartsToDate (match rtOpt with
                       | some rt => jsTruthy rt.start_date
                       | none => none) todayN scheduledStr
    some { m1 with
           scheduledDate := sd,
           withinWindow :=
             match (match m1.realtime with
                    | some t => some t
                    | none => sd) with
             | some t =>
               decide (now - WINDOW_PAST_MIN * 60 * 1000 ≤ t) &&
                 decide (t ≤ now + WINDOW_FUTURE_MIN * 60 * 1000)
             | none => false }

def mergeAnnotated (rows : List SchedRow) (rtByTrip : String → Option RtTrip)
    (now : Int) (todayN : Nat) : List MergedRow :=
  rows.filterMap (mergeAnnotate rtByTrip now todayN)

/-- `out.filter(x => x.withinWindow)`. -/
def mergeWindowed (rows : List SchedRow) (rtByTrip : String → Option RtTrip)
    (now : Int) (todayN : Nat) : List MergedRow :=
  (mergeAnnotated rows rtByTrip now todayN).filter (·.withinWindow)

/-- A template literal renders a missing field as the string `undefined`. -/
def jsTemplate (o : Option String) : String := o.getD "undefined"

/-- The dedupe key: trip id, raw `arrival_time` field, and the realtime
epoch (`ns` when null). -/
def dedupeKey (m : MergedRow) : String :=
  jsTemplate m.src.trip_id ++ "|" ++ jsTemplate m.src.arrival_time ++ "|" ++
    (match m.realtime with
     | some t => toString t
     | none => "ns")

/-- The seen-set loop that keeps the first row per dedupe key. -/
def dedupeLoop : List String → List MergedRow → List MergedRow
  | _, [] => []
  | seen, m :: rest =>
    if seen.contains (dedupeKey m) then dedupeLoop seen rest
    else m :: dedupeLoop (dedupeKey m :: seen) rest

def mergeDeduped (rows : List SchedRow) (rtByTrip : String → Option RtTrip)
    (now : Int) (todayN : Nat) : List MergedRow :=
  dedupeLoop [] (mergeWindowed rows rtByTrip now todayN)

/-! ## A stable sort with fuel

`Array.prototype.sort` must be stable and coerces a `NaN` comparator value
to zero; with a consistent comparator its output is the unique stable
order, which this top-down merge sort produces.  The fuel (the list length
bounds the recursion depth) keeps the definition structural, so concrete
runs reduce inside the kernel. -/

def jsMergeFuel (le : α → α → Bool) : Nat → List α → List α → List α
  | 0, xs, ys => xs ++ ys
  | _ + 1, [], ys => ys
  | _ + 1, x :: xs, [] => x :: xs
  | fuel + 1, x :: xs, y :: ys =>
    if le x y then x :: jsMergeFuel le fuel xs (y :: ys)
    else y :: jsMergeFuel le fuel (x :: xs) ys

def jsSortFuel (le : α → α → Bool) : Nat → List α → List α
  | 0, l => l
  | _ + 1, [] => []
  | _ + 1, [a] => [a]
  | fuel + 1, a :: b :: rest =>
    let l := a :: b :: rest
    jsMergeFuel le (l.length + l.length)
      (jsSortFuel le fuel (l.take (l.length / 2)))
      (jsSortFuel le fuel (l.drop (l.length / 2)))

def jsSortStable (le : α → α → Bool) (l : List α) : List α := jsSortFuel le l.length l

/-- Effective display time: realtime when present, else the scheduled date. -/
def effTimeOf (m : MergedRow) : Option Int :=
  match m.realtime with
  | some t => some t
  | none => m.scheduledDate

/-- The final sort comparator `ta - tb`: a `NaN` difference (an invalid
date on either side) compares as zero. -/
def mergeLe (a b : MergedRow) : Bool :=
  match effTimeOf a, effTimeOf b with
  | some x, some y => x ≤ y
  | _, _ => true

def mergeScheduledWithRT (rows : List SchedRow) (rtByTrip : String → Option RtTrip)
    (now : Int) (todayN : Nat) : List MergedRow :=
  jsSortStable mergeLe (mergeDeduped rows rtByTrip now todayN)

/-- The display window written as the spec words it: an effective time
inside the closed interval from 30 minutes before to 60 minutes after
`now`; an undefined effective time is never inside. -/
def inWindowSpec (now : Int) : Option Int → Prop
  | some t => now - 30 * 60 * 1000 ≤ t ∧ t ≤ now + 60 * 60 * 1000
  | none => False

/-! ## Variant `part_002`: `filterArrivals`

Service filter, window filter, dedupe by `trip_id` alone, sort by
`arrival_time`.  The window time is built with `setHours` on a fresh
`Date`, which keeps the current millisecond remainder: `todayEpoch` is the
UTC midnight of today and `msRem` that remainder. -/

structure Arr2 where
  trip_id : String
  arrival_time : String
  route_short : Option String := none
  trip_headsign : Option String := none
deriving DecidableEq, Repr

def arrivalPasses_p2 (tripToService : String → Option String)
    (validServiceIds : String → Bool) (todayEpoch now msRem : Int)
    (a : Arr2) : Bool :=
  match jsTruthy (tripToService a.trip_id) with
  | none => false
  | some sid =>
    if !(validServiceIds sid) then false
    else
      let parts := splitChar ':' a.arrival_time.data
      match jsParseIntChars (parts.getD 0 []), jsParseIntChars (parts.getD 1 []),
          jsParseIntChars (parts.getD 2 []) with
      | some h, some mi, some s =>
        let t := todayEpoch + h * 3600000 + mi * 60000 + s * 1000 + msRem
        decide (now - 30 * 60 * 1000 ≤ t) && decide (t ≤ now + 60 * 60 * 1000)
      | _, _, _ => false

/-- `filtered.filter((a,i,arr) => arr.findIndex(b => b.trip_id === a.trip_id) === i)`:
keep the first row per trip id. -/
def dedupeTripLoop : List String → List Arr2 → List Arr2
  | _, [] => []
  | seen, a :: rest =>
    if seen.contains a.trip_id then dedupeTripLoop seen rest
    else a :: dedupeTripLoop (a.trip_id :: seen) rest

def filterArrivals_p2 (tripToService : String → Option String)
    (validServiceIds : String → Bool) (todayEpoch now msRem : Int)
    (arrivals : List Arr2) : List Arr2 :=
  let filtered := arrivals.filter (arrivalPasses_p2 tripToService validServiceIds todayEpoch now msRem)
  jsSortStable (fun a b => jsStrLe a.arrival_time b.arrival_time)
    (dedupeTripLoop [] filtered)

/-! ## Variant `part_001`: the per-stop window filter

`t` is today at the `HH:MM:SS` of the arrival (milliseconds zeroed) and the
row is kept iff `(t - now)/60000` lies in `[-30, 60]`. -/

def windowPred_p1 (todayEpoch now : Int) (timeStr : String) : Bool :=
  let parts := splitChar ':' timeStr.data
  match jsParseIntChars (parts.getD 0 []), jsParseIntChars (parts.getD 1 []),
      jsParseIntChars (parts.getD 2 []) with
  | some h, some mi, some s =>
    let t := todayEpoch + h * 3600000 + mi * 60000 + s * 1000
    let deltaMin := qDiv (qI (t - now)) (qI 60000)
    qLe (qI (-30)) deltaMin && qLe deltaMin (qI 60)
  | _, _, _ => false

/-! ## Compass bucketing -/

def compassPoints : List String := ["N", "NE", "E", "SE", "S", "SW", "W", "NW"]

/-- `degToCompass` of app.js (and the floor-based copies): index
`Math.floor(deg/45 + 0.5) % 8` with the truncating JavaScript `%`; a
negative index reads outside the array, which is `undefined` (`none`). -/
def degToCompass (deg : Q) : Option String :=
  let val := qFloor (qAdd (qDiv deg (qI 45)) qHalf)
  let idx := val.tmod 8
  if 0 ≤ idx then compassPoints.get? idx.toNat else none

/-- `degToCompass` of the first app4.js variant:
`Math.round(((deg % 360) / 45)) % 8`. -/
def degToCompass4 (deg : Q) : Option String :=
  let val := qRound (qDiv (qFmod deg (qI 360)) (qI 45))
  let idx := val.tmod 8
  if 0 ≤ idx then compassPoints.get? idx.toNat else none

/-- `compassDirection` of part_000: `Math.round(deg / 45) % 8`. -/
def compassDirection (deg : Q) : Option String :=
  let val := qRound (qDiv deg (qI 45))
  let idx := val.tmod 8
  if 0 ≤ idx then compassPoints.get? idx.toNat else none

/-- The bucketing the spec words describe: `round(bearing/45) mod 8` into
the table starting at N, with a mathematical (nonnegative) `mod`. -/
def compassOfRoundSpec (deg : Q) : String :=
  compassPoints.getD (qRound (qDiv deg (qI 45)) % 8).toNat "N"

/-- The threshold chain inside `bearing` of part_002: explicit 22.5-degree
sector boundaries, with everything from 292.5 up answered `NW`. -/
def bearingBucket_p2 (brng : Q) : String :=
  if qLt brng ⟨45, 2⟩ then "N"
  else if qLt brng ⟨135, 2⟩ then "NE"
  else if qLt brng ⟨225, 2⟩ then "E"
  else if qLt brng ⟨315, 2⟩ then "SE"
  else if qLt brng ⟨405, 2⟩ then "S"
  else if qLt brng ⟨495, 2⟩ then "SW"
  else if qLt brng ⟨585, 2⟩ then "W"
  else "NW"

/-! ## JavaScript numbers with `NaN` and infinities -/

inductive JsNum where
  | nan
  | posInf
  | negInf
  | num (q : Q)
deriving DecidableEq, Repr

def jsAdd : JsNum → JsNum → JsNum
  | .nan, _ => .nan
  | _, .nan => .nan
  | .posInf, .negInf => .nan
  | .negInf, .posInf => .nan
  | .posInf, _ => .posInf
  | _, .posInf => .posInf
  | .negInf, _ => .negInf
  | _, .negInf => .negInf
  | .num a, .num b => .num (qAdd a b)

def jsSub : JsNum → JsNum → JsNum
  | .nan, _ => .nan
  | _, .nan => .nan
  | .posInf, .posInf => .nan
  | .negInf, .negInf => .nan
  | .posInf, _ => .posInf
  | .negInf, _ => .negInf
  | .num _, .posInf => .negInf
  | .num _, .negInf => .posInf
  | .num a, .num b => .num (qSub a b)

def jsMul : JsNum → JsNum → JsNum
  | .nan, _ => .nan
  | _, .nan => .nan
  | .posInf, .posInf => .posInf
  | .posInf, .negInf => .negInf
  | .negInf, .posInf => .negInf
  | .negInf, .negInf => .posInf
  | .posInf, .num q => if q.n = 0 then .nan else if 0 < q.n then .posInf else .negInf
  | .num q, .posInf => if q.n = 0 then .nan else if 0 < q.n then .posInf else .negInf
  | .negInf, .num q => if q.n = 0 then .nan else if 0 < q.n then .negInf else .posInf
  | .num q, .negInf => if q.n = 0 then .nan else if 0 < q.n then .negInf else .posInf
  | .num a, .num b => .num (qMul a b)

def jsDiv : JsNum → JsNum → JsNum
  | .nan, _ => .nan
  | _, .nan => .nan
  | .posInf, .posInf => .nan
  | .posInf, .negInf => .nan
  | .negInf, .posInf => .nan
  | .negInf, .negInf => .nan
  | .posInf, .num q => if q.n < 0 then .negInf else .posInf
  | .negInf, .num q => if q.n < 0 then .posInf else .negInf
  | .num _, .posInf => .num (qI 0)
  | .num _, .negInf => .num (qI 0)
  | .num a, .num b =>
    if b.n = 0 then
      if a.n = 0 then .nan else if 0 < a.n then .posInf else .negInf
    else .num (qDiv a b)

def jsFmodNum : JsNum → JsNum → JsNum
  | .nan, _ => .nan
  | _, .nan => .nan
  | .posInf, _ => .nan
  | .negInf, _ => .nan
  | .num a, .posInf => .num a
  | .num a, .negInf => .num a
  | .num a, .num b => if b.n = 0 then .nan else .num (qFmod a b)

def jsRoundNum : JsNum → JsNum
  | .nan => .nan
  | .posInf => .posInf
  | .negInf => .negInf
  | .num q => .num (qI (qRound q))

/-- `degToCompass` applied to an arbitrary number: a `NaN` or infinite
degree indexes the table at a non-integer, which is `undefined`. -/
def degToCompassNum : JsNum → Option String
  | .num q => degToCompass q
  | _ => none

/-! ## Haversine distance and bearing

The trigonometric primitives are abstract (`Prims`): the claims under
verification say nothing about their values, only about `NaN` handling and
about which stops enter the ranked list, so the pipeline is parametric in
them and concrete runs instantiate them on the exactly-representable
points they touch. -/

structure Prims where
  sinF : JsNum → JsNum
  cosF : JsNum → JsNum
  sqrtF : JsNum → JsNum
  atan2F : JsNum → JsNum → JsNum
  piV : Q

def toRadJ (P : Prims) (v : JsNum) : JsNum :=
  jsDiv (jsMul v (JsNum.num P.piV)) (JsNum.num (qI 180))

/-- `haversine` of app4.js: the rounded metre distance and the normalised
bearing in degrees.  `getDistanceAndBearing` of app.js runs the same
arithmetic. -/
def haversine (P : Prims) (lat1 lon1 lat2 lon2 : JsNum) : JsNum × JsNum :=
  let dLat := toRadJ P (jsSub lat2 lat1)
  let dLon := toRadJ P (jsSub lon2 lon1)
  let sdLat := P.sinF (jsDiv dLat (JsNum.num (qI 2)))
  let sdLon := P.sinF (jsDiv dLon (JsNum.num (qI 2)))
  let a := jsAdd (jsMul sdLat sdLat)
    (jsMul (jsMul (P.cosF (toRadJ P lat1)) (P.cosF (toRadJ P lat2))) (jsMul sdLon sdLon))
  let c := jsMul (JsNum.num (qI 2)) (P.atan2F (P.sqrtF a) (P.sqrtF (jsSub (JsNum.num (qI 1)) a)))
  let dist := jsRoundNum (jsMul (JsNum.num (qI 6371000)) c)
  let y := jsMul (P.sinF dLon) (P.cosF (toRadJ P lat2))
  let x := jsSub (jsMul (P.cosF (toRadJ P lat1)) (P.sinF (toRadJ P lat2)))
    (jsMul (jsMul (P.sinF (toRadJ P lat1)) (P.cosF (toRadJ P lat2))) (P.cosF dLon))
  let bearingDeg := jsFmodNum
    (jsAdd (jsDiv (jsMul (P.atan2F y x) (JsNum.num (qI 180))) (JsNum.num P.piV))
      (JsNum.num (qI 360)))
    (JsNum.num (qI 360))
  (dist, bearingDeg)

/-- `getDistanceAndBearing` of app.js: the same arithmetic, compass applied
to the bearing. -/
def getDistanceAndBearing (P : Prims) (lat1 lon1 lat2 lon2 : JsNum) :
    JsNum × Option String :=
  let h := haversine P lat1 lon1 lat2 lon2
  (h.1, degToCompassNum h.2)

/-! ## `parseFloat` -/

def parseDecChars (cs : List Char) : Option Q :=
  let signSplit : Bool × List Char :=
    match cs with
    | '-' :: t => (true, t)
    | '+' :: t => (false, t)
    | t => (false, t)
  let neg := signSplit.1
  let cs1 := signSplit.2
  let ip := cs1.takeWhile Char.isDigit
  let rest := cs1.drop ip.length
  match rest with
  | '.' :: fr0 =>
    let fp := fr0.takeWhile Char.isDigit
    if ip.isEmpty && fp.isEmpty then none
    else
      let v : Int := digitsToNat (ip ++ fp)
      some ⟨if neg then -v else v, 10 ^ fp.length⟩
  | _ =>
    if ip.isEmpty then none
    else some ⟨if neg then -(digitsToNat ip : Int) else (digitsToNat ip : Int), 1⟩

/-- `parseFloat` of a property that may be missing: `NaN` when absent or
when no leading decimal number can be read. -/
def jsParseFloat : Option String → JsNum
  | none => .nan
  | some s =>
    match parseDecChars s.data with
    | some q => .num q
    | none => .nan

/-! ## Stop features and geospatial ranking -/

structure Feature where
  AtcoCode : Option String := none
  SCN_English : Option String := none
  Latitude : Option String := none
  Longitude : Option String := none
deriving DecidableEq, Repr

structure RankedStop where
  feature : Feature
  distance : JsNum
  bearing : Option String
deriving DecidableEq, Repr

/-- The distance sort comparator `(a, b) => a.distance - b.distance` after
the specified `SortCompare` step: a `NaN` comparator value counts as zero,
so such a pair is left in stable order. -/
def distLe (a b : RankedStop) : Bool :=
  match jsSub a.distance b.distance with
  | .nan => true
  | .posInf => false
  | .negInf => true
  | .num q => qLe q (qI 0)

/-- app.js `renderStops`: every feature is mapped through
`getDistanceAndBearing` on its parsed coordinates, with no validity
check. -/
def stopsWithDistance_appjs (P : Prims) (ulat ulon : JsNum)
    (features : List Feature) : List RankedStop :=
  features.map (fun f =>
    let r := getDistanceAndBearing P ulat ulon (jsParseFloat f.Latitude)
      (jsParseFloat f.Longitude)
    { feature := f, distance := r.1, bearing := r.2 })

def nearestStops_appjs (P : Prims) (ulat ulon : JsNum)
    (features : List Feature) : List RankedStop :=
  (jsSortStable distLe (stopsWithDistance_appjs P ulat ulon features)).take 5

/-- The candidate list of app4.js `render`: a feature whose latitude or
longitude does not parse becomes `null` and is dropped by
`.filter(Boolean)`. -/
def rankList_app4 (P : Prims) (ulat ulon : JsNum)
    (features : List Feature) : List RankedStop :=
  features.filterMap (fun f =>
    let lat := jsParseFloat f.Latitude
    let lon := jsParseFloat f.Longitude
    if lat = JsNum.nan ∨ lon = JsNum.nan then none
    else
      let h := haversine P ulat ulon lat lon
      some { feature := f, distance := h.1,
             bearing := match h.2 with
                        | .num q => degToCompass4 q
                        | _ => none })

def nearestStops_app4 (P : Prims) (ulat ulon : JsNum)
    (features : List Feature) : List RankedStop :=
  (jsSortStable distLe (rankList_app4 P ulat ulon features)).take 5

/-- The variant of `renderStops` (part_001 and part_003) that checks
`isNaN` and assigns `Infinity` and the `?` bearing instead of dropping the
stop. -/
def stopsWithDistance_p1 (P : Prims) (ulat ulon : JsNum)
    (features : List Feature) : List RankedStop :=
  features.map (fun f =>
    let lat := jsParseFloat f.Latitude
    let lon := jsParseFloat f.Longitude
    if lat = JsNum.nan ∨ lon = JsNum.nan then
      { feature := f, distance := .posInf, bearing := some "?" }
    else
      let r := getDistanceAndBearing P ulat ulon lat lon
      { feature := f, distance := r.1, bearing := r.2 })

def nearestStops_p1 (P : Prims) (ulat ulon : JsNum)
    (features : List Feature) : List RankedStop :=
  (jsSortStable distLe (stopsWithDistance_p1 P ulat ulon features)).take 5

/-! ## Render traces

A run of a render function is summarised by its observable effects: whether
an exception escaped it, the user-visible message it wrote, whether it
asked for geolocation, which per-stop arrival files it fetched, which stop
cards it rendered, and whether it substituted a fallback location. -/

structure RenderTrace where
  uncaught : Bool := false
  message : Option String := none
  geoRequested : Bool := false
  fetchedStops : List (Option String) := []
  renderedStops : List RankedStop := []
  usedFallback : Bool := false
deriving DecidableEq, Repr

/-- app.js `renderStops`: `loadStops()` is not guarded, so a geography
failure escapes as an uncaught rejection; a geolocation failure is caught,
writes a message into the stop container and returns. -/
def renderStops_appjs (P : Prims) (stopsResult : Option (List Feature))
    (geoResult : Option (JsNum × JsNum)) : RenderTrace :=
  match stopsResult with
  | none => { uncaught := true }
  | some features =>
    match geoResult with
    | none =>
      { message := some "Cannot determine location", geoRequested := true }
    | some (ulat, ulon) =>
      let nearest := nearestStops_appjs P ulat ulon features
      { geoRequested := true,
        fetchedStops := nearest.map (·.feature.AtcoCode),
        renderedStops := nearest }

/-- app4.js `render`: the geography load is wrapped, its failure writes the
status message and returns before geolocation; a geolocation failure
writes its own message and returns before any per-stop work. -/
def render_app4 (P : Prims) (stopsResult : Option (List Feature))
    (geoResult : Option (JsNum × JsNum)) : RenderTrace :=
  match stopsResult with
  | none => { message := some "Error loading stops.geojson.gz" }
  | some features =>
    match geoResult with
    | none =>
      { message := some "Cannot determine location (allow location and reload)",
        geoRequested := true }
    | some (ulat, ulon) =>
      let nearest := nearestStops_app4 P ulat ulon features
      { geoRequested := true,
        fetchedStops := nearest.map (·.feature.AtcoCode),
        renderedStops := nearest }

/-- The later `renderStops` variant of app4.js (the one that loads
`trips.txt.gz`): a geolocation failure only logs a warning, substitutes the
coordinates of the first stop and renders anyway; with no stops at all the
substitution itself throws. -/
def renderStops_fallback (P : Prims) (stopsResult : Option (List Feature))
    (geoResult : Option (JsNum × JsNum)) : RenderTrace :=
  match stopsResult with
  | none => { uncaught := true }
  | some features =>
    let loc : Option ((JsNum × JsNum) × Bool) :=
      match geoResult with
      | some c => some (c, false)
      | none =>
        match features with
        | [] => none
        | f :: _ => some ((jsParseFloat f.Latitude, jsParseFloat f.Longitude), true)
    match loc with
    | none => { uncaught := true, geoRequested := true }
    | some ((ulat, ulon), fb) =>
      let nearest := (jsSortStable distLe (stopsWithDistance_appjs P ulat ulon features)).take 5
      { geoRequested := true, usedFallback := fb, renderedStops := nearest }

/-! ## Lemmas about the fueled stable sort -/

lemma jsMergeFuel_mem {α : Type} (le : α → α → Bool) :
    ∀ (fuel : Nat) (xs ys : List α) (a : α),
      a ∈ jsMergeFuel le fuel xs ys ↔ a ∈ xs ∨ a ∈ ys := by
  intro fuel
  induction fuel with
  | zero => intro xs ys a; simp [jsMergeFuel]
  | succ n ih =>
    intro xs ys a
    cases xs with
    | nil => simp [jsMergeFuel]
    | cons x xs =>
      cases ys with
      | nil => simp [jsMergeFuel]
      | cons y ys =>
        simp only [jsMergeFuel]
        split
        · simp only [List.mem_cons, ih]
          tauto
        · simp only [List.mem_cons, ih]
          tauto

lemma jsMergeFuel_length {α : Type} (le : α → α → Bool) :
    ∀ (fuel : Nat) (xs ys : List α),
      (jsMergeFuel le fuel xs ys).length = xs.length + ys.length := by
  intro fuel
  induction fuel with
  | zero => intro xs ys; simp [jsMergeFuel]
  | succ n ih =>
    intro xs ys
    cases xs with
    | nil => simp [jsMergeFuel]
    | cons x xs =>
      cases ys with
      | nil => simp [jsMergeFuel]
      | cons y ys =>
        simp only [jsMergeFuel]
        split
        · simp only [List.length_cons, ih]
          omega
        · simp only [List.length_cons, ih]
          omega

lemma jsMergeFuel_countP {α : Type} (le : α → α → Bool) (p : α → Bool) :
    ∀ (fuel : Nat) (xs ys : List α),
      (jsMergeFuel le fuel xs ys).countP p = xs.countP p + ys.countP p := by
  intro fuel
  induction fuel with
  | zero => intro xs ys; simp [jsMergeFuel, List.countP_append]
  | succ n ih =>
    intro xs ys
    cases xs with
    | nil => simp [jsMergeFuel]
    | cons x xs =>
      cases ys with
      | nil => simp [jsMergeFuel]
      | cons y ys =>
        simp only [jsMergeFuel]
        split
        · simp only [List.countP_cons, ih]
          omega
        · simp only [List.countP_cons, ih]
          omega

lemma jsSortFuel_mem {α : Type} (le : α → α → Bool) :
    ∀ (fuel : Nat) (l : List α) (a : α), a ∈ jsSortFuel le fuel l ↔ a ∈ l := by
  intro fuel
  induction fuel with
  | zero => intro l a; simp [jsSortFuel]
  | succ n ih =>
    intro l a
    match l with
    | [] => simp [jsSortFuel]
    | [x] => simp [jsSortFuel]
    | x :: y :: rest =>
      simp only [jsSortFuel, jsMergeFuel_mem, ih]
      rw [← List.mem_append, List.take_append_drop]

lemma jsSortFuel_length {α : Type} (le : α → α → Bool) :
    ∀ (fuel : Nat) (l : List α), (jsSortFuel le fuel l).length = l.length := by
  intro fuel
  induction fuel with
  | zero => intro l; simp [jsSortFuel]
  | succ n ih =>
    intro l
    match l with
    | [] => simp [jsSortFuel]
    | [x] => simp [jsSortFuel]
    | x :: y :: rest =>
      simp only [jsSortFuel, jsMergeFuel_length, ih]
      simp only [List.length_take, List.length_drop, List.length_cons]
      omega

lemma jsSortFuel_countP {α : Type} (le : α → α → Bool) (p : α → Bool) :
    ∀ (fuel : Nat) (l : List α), (jsSortFuel le fuel l).countP p = l.countP p := by
  intro fuel
  induction fuel with
  | zero => intro l; simp [jsSortFuel]
  | succ n ih =>
    intro l
    match l with
    | [] => simp [jsSortFuel]
    | [x] => simp [jsSortFuel]
    | x :: y :: rest =>
      simp only [jsSortFuel, jsMergeFuel_countP, ih]
      rw [← List.countP_append, List.take_append_drop]

lemma jsSortStable_mem {α : Type} (le : α → α → Bool) (l : List α) (a : α) :
    a ∈ jsSortStable le l ↔ a ∈ l := jsSortFuel_mem le l.length l a

lemma jsSortStable_length {α : Type} (le : α → α → Bool) (l : List α) :
    (jsSortStable le l).length = l.length := jsSortFuel_length le l.length l

lemma jsSortStable_countP {α : Type} (le : α → α → Bool) (p : α → Bool) (l : List α) :
    (jsSortStable le l).countP p = l.countP p := jsSortFuel_countP le p l.length l

lemma jsMergeFuel_pairwise {α : Type} (le : α → α → Bool) (G : α → Prop)
    (htot : ∀ a b, G a → G b → le a b = true ∨ le b a = true)
    (htrans : ∀ a b c, G a → G b → G c → le a b = true → le b c = true → le a c = true) :
    ∀ (fuel : Nat) (xs ys : List α), xs.length + ys.length ≤ fuel →
      (∀ a ∈ xs, G a) → (∀ a ∈ ys, G a) →
      List.Pairwise (fun a b => le a b = true) xs →
      List.Pairwise (fun a b => le a b = true) ys →
      List.Pairwise (fun a b => le a b = true) (jsMergeFuel le fuel xs ys) := by
  intro fuel
  induction fuel with
  | zero =>
    intro xs ys hf _ _ _ _
    have hx : xs = [] := List.length_eq_zero.mp (by omega)
    have hy : ys = [] := List.length_eq_zero.mp (by omega)
    subst hx; subst hy
    simp [jsMergeFuel]
  | succ n ih =>
    intro xs ys hf hGx hGy hx hy
    cases xs with
    | nil => simpa [jsMergeFuel] using hy
    | cons x xs =>
      cases ys with
      | nil => simpa [jsMergeFuel] using hx
      | cons y ys =>
        simp only [jsMergeFuel]
        rcases List.pairwise_cons.mp hx with ⟨hxhead, hxtail⟩
        rcases List.pairwise_cons.mp hy with ⟨hyhead, hytail⟩
        split
        case isTrue hle =>
          refine List.pairwise_cons.mpr ⟨?_, ?_⟩
          · intro z hz
            rcases (jsMergeFuel_mem le n xs (y :: ys) z).mp hz with hzx | hzy
            · exact hxhead z hzx
            · rcases List.mem_cons.mp hzy with rfl | hzys
              · exact hle
              · exact htrans x y z (hGx x (by simp)) (hGy y (by simp))
                  (hGy z (by simp [hzys])) hle (hyhead z hzys)
          · exact ih xs (y :: ys) (by simp at hf ⊢; omega)
              (fun a ha => hGx a (by simp [ha])) hGy hxtail hy
        case isFalse hle =>
          have hyx : le y x = true := by
            rcases htot x y (hGx x (by simp)) (hGy y (by simp)) with h | h
            · exact absurd h hle
            · exact h
          refine List.pairwise_cons.mpr ⟨?_, ?_⟩
          · intro z hz
            rcases (jsMergeFuel_mem le n (x :: xs) ys z).mp hz with hzx | hzy
            · rcases List.mem_cons.mp hzx with rfl | hzxs
              · exact hyx
              · exact htrans y x z (hGy y (by simp)) (hGx x (by simp))
                  (hGx z (by simp [hzxs])) hyx (hxhead z hzxs)
            · exact hyhead z hzy
          · exact ih (x :: xs) ys (by simp at hf ⊢; omega)
              hGx (fun a ha => hGy a (by simp [ha])) hx hytail

lemma jsSortFuel_pairwise {α : Type} (le : α → α → Bool) (G : α → Prop)
    (htot : ∀ a b, G a → G b → le a b = true ∨ le b a = true)
    (htrans : ∀ a b c, G a → G b → G c → le a b = true → le b c = true → le a c = true) :
    ∀ (fuel : Nat) (l : List α), l.length ≤ fuel → (∀ a ∈ l, G a) →
      List.Pairwise (fun a b => le a b = true) (jsSortFuel le fuel l) := by
  intro fuel
  induction fuel with
  | zero =>
    intro l hf _
    have : l = [] := List.length_eq_zero.mp (by omega)
    subst this
    simp [jsSortFuel]
  | succ n ih =>
    intro l hf hG
    match l with
    | [] => simp [jsSortFuel]
    | [x] => simp [jsSortFuel]
    | x :: y :: rest =>
      simp only [jsSortFuel]
      have hlen : (x :: y :: rest).length ≤ n + 1 := hf
      have htk : (List.take ((x :: y :: rest).length / 2) (x :: y :: rest)).length ≤ n := by
        simp only [List.length_take, List.length_cons] at *
        omega
      have hdp : (List.drop ((x :: y :: rest).length / 2) (x :: y :: rest)).length ≤ n := by
        simp only [List.length_drop, List.length_cons] at *
        omega
      have hGtk : ∀ a ∈ List.take ((x :: y :: rest).length / 2) (x :: y :: rest), G a :=
        fun a ha => hG a (List.mem_of_mem_take ha)
      have hGdp : ∀ a ∈ List.drop ((x :: y :: rest).length / 2) (x :: y :: rest), G a :=
        fun a ha => hG a (List.mem_of_mem_drop ha)
      refine jsMergeFuel_pairwise le G htot htrans _ _ _ ?_
        (fun a ha => hGtk a ((jsSortFuel_mem le n _ a).mp ha))
        (fun a ha => hGdp a ((jsSortFuel_mem le n _ a).mp ha))
        (ih _ htk hGtk) (ih _ hdp hGdp)
      rw [jsSortFuel_length, jsSortFuel_length]
      simp only [List.length_take, List.length_drop, List.length_cons]
      omega

lemma jsSortStable_pairwise {α : Type} (le : α → α → Bool) (G : α → Prop)
    (htot : ∀ a b, G a → G b → le a b = true ∨ le b a = true)
    (htrans : ∀ a b c, G a → G b → G c → le a b = true → le b c = true → le a c = true)
    (l : List α) (hG : ∀ a ∈ l, G a) :
    List.Pairwise (fun a b => le a b = true) (jsSortStable le l) :=
  jsSortFuel_pairwise le G htot htrans l.length l le_rfl hG

/-- In a list sorted by a relation under which nothing ranked `false`
against a `p`-element may precede it, the first `n` entries are all `p`
whenever at least `n` entries of the whole list are. -/
lemma pairwise_take_of_countP {α : Type} (le : α → α → Bool) (p : α → Bool)
    (G : α → Prop)
    (hbad : ∀ a b, G a → G b → p a = false → p b = true → le a b = false) :
    ∀ (l : List α), (∀ x ∈ l, G x) →
      List.Pairwise (fun a b => le a b = true) l →
      ∀ n, n ≤ l.countP p → ∀ x ∈ l.take n, p x = true := by
  intro l
  induction l with
  | nil => intro _ _ n _ x hx; simp at hx
  | cons a rest ih =>
    intro hG hpw n hn x hx
    rcases List.pairwise_cons.mp hpw with ⟨hhead, htail⟩
    cases n with
    | zero => simp at hx
    | succ k =>
      by_cases hpa : p a = true
      · rcases List.mem_cons.mp (by simpa using hx) with rfl | hxk
        · exact hpa
        · have : k ≤ rest.countP p := by
            simp [List.countP_cons, hpa] at hn
            omega
          exact ih (fun y hy => hG y (List.mem_cons_of_mem a hy)) htail k this x hxk
      · exfalso
        have hpa' : p a = false := by simpa using hpa
        have hrest : rest.countP p = 0 := by
          rw [List.countP_eq_zero]
          intro b hb hpb
          have := hbad a b (hG a (List.mem_cons_self ..))
            (hG b (List.mem_cons_of_mem a hb)) hpa' hpb
          rw [hhead b hb] at this
          exact absurd this (by simp)
        simp [List.countP_cons, hpa', hrest] at hn

/-! ## Structural lemmas about the merge and the dedupe loops -/

lemma mergeDelayOnly_src (rt : RtTrip) (todayN : Nat) (s : String) (r : SchedRow)
    (d0 : Int) : (mergeDelayOnly rt todayN s r d0).src = r := rfl

lemma mergeRtStopPart_src (rt : RtTrip) (todayN : Nat) (s : String) (r : SchedRow)
    (rtStop : RtStopInfo) : (mergeRtStopPart rt todayN s r rtStop).src = r := by
  unfold mergeRtStopPart
  split
  · split
    · rfl
    · split
      · exact mergeDelayOnly_src ..
      · rfl
  · exact mergeDelayOnly_src ..
  · rfl

lemma mergeRtBranch_src (rt : RtTrip) (todayN : Nat) (s : String) (r : SchedRow) :
    (mergeRtBranch rt todayN s r).src = r := by
  unfold mergeRtBranch
  split
  · exact mergeRtStopPart_src ..
  · rfl

lemma mergeBase_src (rtOpt : Option RtTrip) (todayN : Nat) (s : String)
    (r : SchedRow) : (mergeBase rtOpt todayN s r).src = r := by
  unfold mergeBase
  split
  · exact mergeRtBranch_src ..
  · rfl

lemma mergeAnnotate_some_src (rtByTrip : String → Option RtTrip) (now : Int)
    (todayN : Nat) (r : SchedRow) (m : MergedRow)
    (heq : mergeAnnotate rtByTrip now todayN r = some m) :
    m.src = r ∧ schedStrOf r ≠ "" := by
  unfold mergeAnnotate at heq
  by_cases h : schedStrOf r = ""
  · rw [if_pos h] at heq; cases heq
  · rw [if_neg h] at heq
    have hm := Option.some.inj heq
    subst hm
    exact ⟨mergeBase_src .., h⟩

/-- The window flag a merged row carries is exactly the closed display
window test of its effective time. -/
lemma mergeAnnotate_window (rtByTrip : String → Option RtTrip) (now : Int)
    (todayN : Nat) (r : SchedRow) (m : MergedRow)
    (heq : mergeAnnotate rtByTrip now todayN r = some m) :
    m.withinWindow = true ↔ inWindowSpec now (effTimeOf m) := by
  unfold mergeAnnotate at heq
  by_cases h : schedStrOf r = ""
  · rw [if_pos h] at heq; cases heq
  · rw [if_neg h] at heq
    have hm := Option.some.inj heq
    subst hm
    simp only [effTimeOf]
    cases hr : (mergeBase (rtTripOf rtByTrip r) todayN (schedStrOf r) r).realtime with
    | some t => simp [inWindowSpec, WINDOW_PAST_MIN, WINDOW_FUTURE_MIN]
    | none =>
      cases hsd : timePartsToDate (match rtTripOf rtByTrip r with
                                   | some rt => jsTruthy rt.start_date
                                   | none => none) todayN (schedStrOf r) with
      | some t => simp [hr, hsd, inWindowSpec, WINDOW_PAST_MIN, WINDOW_FUTURE_MIN]
      | none => simp [hr, hsd, inWindowSpec]

lemma dedupeLoop_subset : ∀ (seen : List String) (l : List MergedRow) (m : MergedRow),
    m ∈ dedupeLoop seen l → m ∈ l := by
  intro seen l
  induction l generalizing seen with
  | nil => intro m hm; simp [dedupeLoop] at hm
  | cons a rest ih =>
    intro m hm
    simp only [dedupeLoop] at hm
    split at hm
    · exact List.mem_cons_of_mem a (ih seen m hm)
    · rcases List.mem_cons.mp hm with rfl | hm2
      · exact List.mem_cons_self ..
      · exact List.mem_cons_of_mem a (ih _ m hm2)

lemma dedupeLoop_length_le : ∀ (seen : List String) (l : List MergedRow),
    (dedupeLoop seen l).length ≤ l.length := by
  intro seen l
  induction l generalizing seen with
  | nil => simp [dedupeLoop]
  | cons a rest ih =>
    simp only [dedupeLoop]
    split
    · exact Nat.le_succ_of_le (ih seen)
    · simpa using ih (dedupeKey a :: seen)

lemma dedupeTripLoop_subset : ∀ (seen : List String) (l : List Arr2) (a : Arr2),
    a ∈ dedupeTripLoop seen l → a ∈ l := by
  intro seen l
  induction l generalizing seen with
  | nil => intro a ha; simp [dedupeTripLoop] at ha
  | cons b rest ih =>
    intro a ha
    simp only [dedupeTripLoop] at ha
    split at ha
    · exact List.mem_cons_of_mem b (ih seen a ha)
    · rcases List.mem_cons.mp ha with rfl | ha2
      · exact List.mem_cons_self ..
      · exact List.mem_cons_of_mem b (ih _ a ha2)

lemma dedupeTripLoop_countP_le : ∀ (seen : List String) (l : List Arr2) (t : String),
    (dedupeTripLoop seen l).countP (fun a => a.trip_id == t) ≤
      (if seen.contains t then 0 else 1) := by
  intro seen l
  induction l generalizing seen with
  | nil => intro t; simp [dedupeTripLoop]
  | cons a rest ih =>
    intro t
    simp only [dedupeTripLoop]
    split
    case isTrue hseen => exact ih seen t
    case isFalse hseen =>
      rw [List.countP_cons]
      have hrec := ih (a.trip_id :: seen) t
      by_cases hat : a.trip_id = t
      · subst hat
        have h0 : (a.trip_id :: seen).contains a.trip_id = true := by simp
        have hseen2 : seen.contains a.trip_id = false := by simpa using hseen
        rw [h0] at hrec
        simp only [if_true] at hrec
        simp only [hseen2, Bool.false_eq_true, if_false, beq_self_eq_true, if_true]
        omega
      · have hta : ¬t = a.trip_id := fun h => hat h.symm
        have h0 : (a.trip_id :: seen).contains t = seen.contains t := by
          simp [List.contains_cons, hta]
        rw [h0] at hrec
        have hbeq : (a.trip_id == t) = false := by simpa using hat
        simp only [hbeq, Bool.false_eq_true, if_false]
        omega

lemma dedupeTripLoop_countP_pos : ∀ (seen : List String) (l : List Arr2) (t : String),
    (∃ a ∈ l, a.trip_id = t) → seen.contains t = false →
      0 < (dedupeTripLoop seen l).countP (fun a => a.trip_id == t) := by
  intro seen l
  induction l generalizing seen with
  | nil => intro t h _; simp at h
  | cons a rest ih =>
    intro t hex hseen
    simp only [dedupeTripLoop]
    split
    case isTrue hc =>
      rcases hex with ⟨b, hb, hbt⟩
      rcases List.mem_cons.mp hb with rfl | hbrest
      · rw [hbt] at hc
        rw [hc] at hseen
        cases hseen
      · exact ih seen t ⟨b, hbrest, hbt⟩ hseen
    case isFalse hc =>
      rw [List.countP_cons]
      by_cases hat : a.trip_id = t
      · simp [hat]
      · rcases hex with ⟨b, hb, hbt⟩
        rcases List.mem_cons.mp hb with rfl | hbrest
        · exact absurd hbt hat
        · have hta : ¬t = a.trip_id := fun h => hat h.symm
          have h0 : (a.trip_id :: seen).contains t = false := by
            simp [List.contains_cons, hta]
            simpa using hseen
          have := ih (a.trip_id :: seen) t ⟨b, hbrest, hbt⟩ h0
          omega

/-! ## Compass bucketing: bounds on the rounded index -/

lemma qDiv_by45 (deg : Q) : qDiv deg (qI 45) = ⟨deg.n * 1, deg.d * 45⟩ := by
  simp [qDiv, qI]

lemma compassVal_eq (deg : Q) :
    qRound (qDiv deg (qI 45)) =
      (deg.n * 1 * 2 + 1 * (deg.d * 45)).fdiv ((deg.d * 45 * 2 : Nat)) := by
  rw [qRound, qDiv_by45]
  rfl

lemma compassVal_nonneg (deg : Q) (h0 : 0 ≤ deg.n) :
    0 ≤ qRound (qDiv deg (qI 45)) := by
  rw [compassVal_eq]
  apply Int.fdiv_nonneg
  · nlinarith [Int.natCast_nonneg deg.d]
  · positivity

lemma compassVal_le8 (deg : Q) (hd : 0 < deg.d) (h360 : deg.n < 360 * deg.d) :
    qRound (qDiv deg (qI 45)) ≤ 8 := by
  rw [compassVal_eq]
  have hD : (0 : Int) < ((deg.d * 45 * 2 : Nat) : Int) := by positivity
  rw [Int.fdiv_eq_ediv _ (le_of_lt hD)]
  have hlt : deg.n * 1 * 2 + 1 * (deg.d * 45) < 9 * ((deg.d * 45 * 2 : Nat) : Int) := by
    push_cast
    nlinarith [h360]
  have h9 := (Int.ediv_lt_iff_lt_mul hD).mpr hlt
  omega

lemma compassVal_eq8 (deg : Q) (hd : 0 < deg.d) (h337 : 675 * (deg.d : Int) ≤ 2 * deg.n)
    (h360 : deg.n < 360 * deg.d) : qRound (qDiv deg (qI 45)) = 8 := by
  have hle := compassVal_le8 deg hd h360
  rw [compassVal_eq] at hle ⊢
  have hD : (0 : Int) < ((deg.d * 45 * 2 : Nat) : Int) := by positivity
  rw [Int.fdiv_eq_ediv _ (le_of_lt hD)] at hle ⊢
  have h8 : (8 : Int) ≤ (deg.n * 1 * 2 + 1 * (deg.d * 45)) / ((deg.d * 45 * 2 : Nat) : Int) := by
    rw [Int.le_ediv_iff_mul_le hD]
    push_cast
    nlinarith [h337]
  omega

lemma compass_lookup (val : Int) (h0 : 0 ≤ val) (_h8 : val ≤ 8) :
    (if 0 ≤ val.tmod 8 then compassPoints.get? (val.tmod 8).toNat else none) =
      some (compassPoints.getD ((val % 8)).toNat "N") := by
  rw [Int.tmod_eq_emod h0 (by norm_num)]
  have hm0 : 0 ≤ val % 8 := Int.emod_nonneg val (by norm_num)
  have hm8 : val % 8 < 8 := Int.emod_lt_of_pos val (by norm_num)
  rw [if_pos hm0]
  have hk : (val % 8).toNat < 8 := by omega
  have : (val % 8).toNat = 0 ∨ (val % 8).toNat = 1 ∨ (val % 8).toNat = 2 ∨
      (val % 8).toNat = 3 ∨ (val % 8).toNat = 4 ∨ (val % 8).toNat = 5 ∨
      (val % 8).toNat = 6 ∨ (val % 8).toNat = 7 := by omega
  rcases this with h | h | h | h | h | h | h | h <;> rw [h] <;> rfl

lemma compassOfRoundSpec_mem (deg : Q) : compassOfRoundSpec deg ∈ compassPoints := by
  unfold compassOfRoundSpec
  have h0 : 0 ≤ qRound (qDiv deg (qI 45)) % 8 :=
    Int.emod_nonneg _ (by norm_num)
  have h8 : qRound (qDiv deg (qI 45)) % 8 < 8 :=
    Int.emod_lt_of_pos _ (by norm_num)
  set k := (qRound (qDiv deg (qI 45)) % 8).toNat with hk
  have : k = 0 ∨ k = 1 ∨ k = 2 ∨ k = 3 ∨ k = 4 ∨ k = 5 ∨ k = 6 ∨ k = 7 := by omega
  rcases this with h | h | h | h | h | h | h | h <;> rw [h] <;> simp [compassPoints]

/-- `degToCompass` refines the spec-side round-and-mod table on the claimed
domain. -/
lemma degToCompass_eq_spec (deg : Q) (hd : 0 < deg.d) (h0 : 0 ≤ deg.n)
    (h360 : deg.n < 360 * deg.d) :
    degToCompass deg = some (compassOfRoundSpec deg) := by
  unfold degToCompass compassOfRoundSpec
  exact compass_lookup _ (compassVal_nonneg deg h0) (compassVal_le8 deg hd h360)

lemma compassDirection_eq_degToCompass (deg : Q) :
    compassDirection deg = degToCompass deg := rfl

lemma qFmod360_id (deg : Q) (h0 : 0 ≤ deg.n) (h360 : deg.n < 360 * deg.d) :
    qFmod deg (qI 360) = deg := by
  obtain ⟨n, d⟩ := deg
  simp only [qFmod, qDiv, qI, qTrunc, qMul, qSub] at *
  rw [if_neg (by norm_num)]
  simp only []
  rw [Int.tdiv_eq_zero_of_lt (by simpa using h0) (by push_cast at h360 ⊢; nlinarith [h360])]
  simp [Q.mk.injEq]

lemma degToCompass4_eq (deg : Q) (h0 : 0 ≤ deg.n) (h360 : deg.n < 360 * deg.d) :
    degToCompass4 deg = degToCompass deg := by
  unfold degToCompass4 degToCompass
  rw [qFmod360_id deg h0 h360]
  rfl

/-- C4 (counterexample): at 350 degrees the threshold bucketing of
part_002 answers NW, while `round(350/45) mod 8 = 0` answers N, so that
variant does not implement rounded bucketing. -/
theorem c4_bucket_counterexample :
    bearingBucket_p2 ⟨350, 1⟩ = "NW" ∧ compassOfRoundSpec ⟨350, 1⟩ = "N" ∧
      bearingBucket_p2 ⟨350, 1⟩ ≠ compassOfRoundSpec ⟨350, 1⟩ := by
  refine ⟨by decide, by decide, by decide⟩

/-- C4 (amended): the floor-based `degToCompass` implements
`round(bearing/45) mod 8` over the table on all of `[0, 360)` and takes the
claimed values at the eight exact sector centres and at 22.49 and 22.51
degrees; the threshold bucketing inside `bearing` of part_002 agrees at all
those values but sends the whole sector `[337.5, 360)` to NW, where the
rounded rule answers N. -/
theorem c4_compass_amended :
    (∀ deg : Q, 0 < deg.d → qLe (qI 0) deg = true → qLt deg (qI 360) = true →
      degToCompass deg = some (compassOfRoundSpec deg)) ∧
    (degToCompass ⟨0, 1⟩ = some "N" ∧ degToCompass ⟨45, 1⟩ = some "NE" ∧
     degToCompass ⟨90, 1⟩ = some "E" ∧ degToCompass ⟨135, 1⟩ = some "SE" ∧
     degToCompass ⟨180, 1⟩ = some "S" ∧ degToCompass ⟨225, 1⟩ = some "SW" ∧
     degToCompass ⟨270, 1⟩ = some "W" ∧ degToCompass ⟨315, 1⟩ = some "NW" ∧
     degToCompass ⟨2249, 100⟩ = some "N" ∧ degToCompass ⟨2251, 100⟩ = some "NE") ∧
    (bearingBucket_p2 ⟨0, 1⟩ = "N" ∧ bearingBucket_p2 ⟨45, 1⟩ = "NE" ∧
     bearingBucket_p2 ⟨90, 1⟩ = "E" ∧ bearingBucket_p2 ⟨135, 1⟩ = "SE" ∧
     bearingBucket_p2 ⟨180, 1⟩ = "S" ∧ bearingBucket_p2 ⟨225, 1⟩ = "SW" ∧
     bearingBucket_p2 ⟨270, 1⟩ = "W" ∧ bearingBucket_p2 ⟨315, 1⟩ = "NW" ∧
     bearingBucket_p2 ⟨2249, 100⟩ = "N" ∧ bearingBucket_p2 ⟨2251, 100⟩ = "NE") ∧
    (∀ deg : Q, 0 < deg.d → qLe ⟨675, 2⟩ deg = true → qLt deg (qI 360) = true →
      bearingBucket_p2 deg = "NW" ∧ compassOfRoundSpec deg = "N") := by
  refine ⟨?_, by decide, by decide, ?_⟩
  · intro deg hd h0 h360
    have h0' : 0 ≤ deg.n := by simpa [qLe, qI] using h0
    have h360' : deg.n < 360 * deg.d := by simpa [qLt, qI] using h360
    exact degToCompass_eq_spec deg hd h0' h360'
  · intro deg hd h337 h360
    have h337' : 675 * (deg.d : Int) ≤ 2 * deg.n := by
      have := of_decide_eq_true h337
      simp only [] at this
      omega
    have h360' : deg.n < 360 * deg.d := by simpa [qLt, qI] using h360
    constructor
    · unfold bearingBucket_p2
      rw [if_neg (by simp [qLt]; omega), if_neg (by simp [qLt]; omega),
        if_neg (by simp [qLt]; omega), if_neg (by simp [qLt]; omega),
        if_neg (by simp [qLt]; omega), if_neg (by simp [qLt]; omega),
        if_neg (by simp [qLt]; omega)]
    · unfold compassOfRoundSpec
      rw [compassVal_eq8 deg hd h337' h360']
      rfl

/-- C9: on `[0, 360)` every compass variant returns one of the eight table
strings (the computed index lands in `0..7` and never reads outside the
array), and the whole sector `[337.5, 360)` wraps the index 8 to 0 and
answers N. -/
theorem c9_compass_safety (deg : Q) (hd : 0 < deg.d) (h0 : qLe (qI 0) deg = true)
    (h360 : qLt deg (qI 360) = true) :
    (degToCompass deg = some (compassOfRoundSpec deg) ∧
      compassOfRoundSpec deg ∈ compassPoints) ∧
    degToCompass4 deg = degToCompass deg ∧
    compassDirection deg = degToCompass deg ∧
    (qLe ⟨675, 2⟩ deg = true →
      degToCompass deg = some "N" ∧ degToCompass4 deg = some "N" ∧
        compassDirection deg = some "N") := by
  have h0' : 0 ≤ deg.n := by simpa [qLe, qI] using h0
  have h360' : deg.n < 360 * deg.d := by simpa [qLt, qI] using h360
  have hspec := degToCompass_eq_spec deg hd h0' h360'
  have h4 := degToCompass4_eq deg h0' h360'
  refine ⟨⟨hspec, compassOfRoundSpec_mem deg⟩, h4,
    compassDirection_eq_degToCompass deg, ?_⟩
  intro h337
  have h337' : 675 * (deg.d : Int) ≤ 2 * deg.n := by
    have := of_decide_eq_true h337
    simp only [] at this
    omega
  have hN : compassOfRoundSpec deg = "N" := by
    unfold compassOfRoundSpec
    rw [compassVal_eq8 deg hd h337' h360']
    rfl
  have hmain : degToCompass deg = some "N" := by rw [hspec, hN]
  exact ⟨hmain, by rw [h4, hmain], by rw [compassDirection_eq_degToCompass, hmain]⟩

/-- C9 (witness): the theorem instantiated at 340 degrees. -/
theorem c9_compass_safety_witness :
    (0 < (Q.mk 340 1).d ∧ qLe (qI 0) ⟨340, 1⟩ = true ∧
      qLt ⟨340, 1⟩ (qI 360) = true ∧ qLe ⟨675, 2⟩ ⟨340, 1⟩ = true) ∧
    ((degToCompass ⟨340, 1⟩ = some (compassOfRoundSpec ⟨340, 1⟩) ∧
        compassOfRoundSpec ⟨340, 1⟩ ∈ compassPoints) ∧
      degToCompass4 ⟨340, 1⟩ = degToCompass ⟨340, 1⟩ ∧
      compassDirection ⟨340, 1⟩ = degToCompass ⟨340, 1⟩ ∧
      (qLe ⟨675, 2⟩ ⟨340, 1⟩ = true →
        degToCompass ⟨340, 1⟩ = some "N" ∧ degToCompass4 ⟨340, 1⟩ = some "N" ∧
          compassDirection ⟨340, 1⟩ = some "N")) :=
  ⟨⟨by decide, by decide, by decide, by decide⟩,
    c9_compass_safety ⟨340, 1⟩ (by decide) (by decide) (by decide)⟩

/-! ## C1: the service-day resolver -/

/-- A calendar with no weekday active at all in 2024, for service A. -/
def c1FixCal : String → Option CalRow := fun s =>
  if s = "A" then some ⟨false, false, false, false, false, false, false, 20240101, 20241231⟩
  else none

/-- One addition exception for service A on 2024-07-04. -/
def c1FixEx : String → Nat → Option String := fun s d =>
  if s = "A" && d == 20240704 then some "1" else none

/-- C1 (counterexample): under the claim an addition exception dated on the
reference day makes the service active regardless of the weekly rule, but
`serviceActiveToday` of part_004 tests the weekly flag before it ever looks
at the exception and answers inactive. -/
theorem c1_added_exception_counterexample :
    claimServiceActive c1FixCal c1FixEx 20240704 "A" = true ∧
    serviceActiveToday c1FixCal c1FixEx 20240704 0 "A" = false ∧
    ¬(serviceActiveToday c1FixCal c1FixEx 20240704 0 "A" = true ↔
        claimServiceActive c1FixCal c1FixEx 20240704 "A" = true) :=
  ⟨by decide, by decide, by decide⟩

/-- Service A active Monday through Friday in 2024 (part_004 data model,
flags Sunday first). -/
def c1MonFriCal : String → Option CalRow := fun s =>
  if s = "A" then some ⟨false, true, true, true, true, true, false, 20240101, 20241231⟩
  else none

/-- A removal exception for service A on 2024-07-04 (part_004 data model). -/
def c1RemEx : String → Nat → Option String := fun s d =>
  if s = "A" && d == 20240704 then some "2" else none

/-- The same calendar in the part_002 data model. -/
def c1MonFriCal2 : String → Option Cal2 := fun s =>
  if s = "A" then some ⟨true, true, true, true, true, false, false, "20240101", "20241231"⟩
  else none

/-- The same removal exception in the part_002 data model. -/
def c1RemEx2 : String → String → Option Int := fun s d =>
  if s = "A" && d == "20240704" then some 2 else none

/-- C1 (amended): the part_002 resolver satisfies the claimed biconditional
exactly (an addition exception dated today activates the service
regardless of the weekly rule and range, a removal exception dated today
deactivates it, otherwise the weekly rule within the date range decides);
the part_004 resolver instead requires the calendar base rule in every
case, applies exceptions only after it (so a removal filters and an
addition is a no-op) and, comparing against midnight of `end_date`, drops
the end day itself whenever the time of day is past midnight.  On the
concrete Monday-to-Friday 2024 service with a removal on Thursday
2024-07-04, both resolvers exclude 2024-07-04 and include 2024-07-03 and
2024-07-05. -/
theorem c1_service_day_amended :
    (∀ (cm : String → Option Cal2) (ex : String → String → Option Int)
        (todayStr sid : String),
      validServiceToday_p2 cm ex todayStr sid = true ↔
        (ex sid todayStr = some 1 ∨
          (calendarBase_p2 cm todayStr sid = true ∧ ex sid todayStr ≠ some 2))) ∧
    (∀ (sm : String → Option CalRow) (exm : String → Nat → Option String)
        (todayN msOfDay : Nat) (sid : String),
      serviceActiveToday sm exm todayN msOfDay sid = true ↔
        ∃ svc, sm sid = some svc ∧ svc.startN ≤ todayN ∧
          (todayN < svc.endN ∨ (todayN = svc.endN ∧ msOfDay = 0)) ∧
          weekdayFlagAt svc (dayOfWeekN todayN) = true ∧
          (∀ t, exm sid todayN = some t → t = "" ∨ t = "1")) ∧
    (serviceActiveToday c1MonFriCal c1RemEx 20240704 0 "A" = false ∧
     serviceActiveToday c1MonFriCal c1RemEx 20240703 0 "A" = true ∧
     serviceActiveToday c1MonFriCal c1RemEx 20240705 0 "A" = true) ∧
    (validServiceToday_p2 c1MonFriCal2 c1RemEx2 "20240704" "A" = false ∧
     validServiceToday_p2 c1MonFriCal2 c1RemEx2 "20240703" "A" = true ∧
     validServiceToday_p2 c1MonFriCal2 c1RemEx2 "20240705" "A" = true) := by
  refine ⟨?_, ?_, by decide, by decide⟩
  · intro cm ex todayStr sid
    unfold validServiceToday_p2
    cases hex : ex sid todayStr with
    | none => simp [hex]
    | some e =>
      by_cases he1 : e = 1
      · simp [hex, he1]
      · by_cases he2 : e = 2
        · simp [hex, he1, he2]
        · simp [hex, he1, he2]
  · intro sm exm todayN ms sid
    unfold serviceActiveToday
    cases hsm : sm sid with
    | none => simp [hsm]
    | some svc =>
      simp only [hsm, Option.some.injEq]
      constructor
      · intro h
        split at h
        case isTrue h1 => cases h
        case isFalse h1 =>
          split at h
          case isTrue h2 => cases h
          case isFalse h2 =>
            simp only [Bool.or_eq_true, decide_eq_true_eq, Bool.and_eq_true,
              beq_iff_eq, not_or] at h1
            simp only [Bool.not_eq_true', Bool.not_eq_false] at h2
            refine ⟨svc, rfl, by omega, by omega, h2, ?_⟩
            intro t ht
            rw [ht] at h
            have hh : (if t = "" then true else decide (t = "1")) = true := h
            by_cases hte : t = ""
            · exact Or.inl hte
            · rw [if_neg hte] at hh
              exact Or.inr (by simpa using hh)
      · rintro ⟨svc2, rfl, hstart, hrange, hflag, hexm⟩
        have h1 : ¬((decide (todayN < svc.startN) ||
            (decide (svc.endN < todayN) || (todayN == svc.endN && decide (0 < ms)))) = true) := by
          simp only [Bool.or_eq_true, decide_eq_true_eq, Bool.and_eq_true,
            beq_iff_eq, not_or]
          omega
        rw [if_neg h1]
        have h2 : ¬((!(weekdayFlagAt svc (dayOfWeekN todayN))) = true) := by
          simp [hflag]
        rw [if_neg h2]
        cases hexm2 : exm sid todayN with
        | none => rfl
        | some t =>
          rcases hexm t hexm2 with rfl | rfl
          · simp
          · simp

/-! ## C2, C3, C5, C10: the arrival merge -/

/-- A minimal schedule row: a trip id and a scheduled arrival time. -/
def mkRow (tid t : String) : SchedRow := { trip_id := some tid, arrival_time := some t }

/-- C2: the display-window stage of the merge keeps exactly the rows whose
effective time (realtime when present, else scheduled) lies in the closed
interval from `now` minus 30 minutes to `now` plus 60 minutes; with `now`
at noon of the anchor day, an arrival 30 minutes past survives the whole
merge, one 31 minutes past is dropped, one 60 minutes ahead survives, one
61 minutes ahead is dropped, and the window predicate of the part_001
variant answers the same on those boundaries. -/
theorem c2_display_window :
    (∀ (rows : List SchedRow) (rtByTrip : String → Option RtTrip)
        (now : Int) (todayN : Nat) (m : MergedRow),
      m ∈ mergeWindowed rows rtByTrip now todayN ↔
        m ∈ mergeAnnotated rows rtByTrip now todayN ∧
          inWindowSpec now (effTimeOf m)) ∧
    (mergeScheduledWithRT [mkRow "T" "11:30:00"] (fun _ => none)
        43200000 19700101).length = 1 ∧
    mergeScheduledWithRT [mkRow "T" "11:29:00"] (fun _ => none)
        43200000 19700101 = [] ∧
    (mergeScheduledWithRT [mkRow "T" "13:00:00"] (fun _ => none)
        43200000 19700101).length = 1 ∧
    mergeScheduledWithRT [mkRow "T" "13:01:00"] (fun _ => none)
        43200000 19700101 = [] ∧
    windowPred_p1 0 43200000 "11:30:00" = true ∧
    windowPred_p1 0 43200000 "11:29:00" = false ∧
    windowPred_p1 0 43200000 "13:00:00" = true ∧
    windowPred_p1 0 43200000 "13:01:00" = false := by
  refine ⟨?_, by decide, by decide, by decide, by decide,
    by decide, by decide, by decide, by decide⟩
  intro rows rtByTrip now todayN m
  unfold mergeWindowed
  rw [List.mem_filter]
  constructor
  · rintro ⟨hm, hw⟩
    refine ⟨hm, ?_⟩
    unfold mergeAnnotated at hm
    obtain ⟨r, _, heq⟩ := List.mem_filterMap.mp hm
    exact (mergeAnnotate_window _ _ _ _ _ heq).mp hw
  · rintro ⟨hm, hw⟩
    refine ⟨hm, ?_⟩
    unfold mergeAnnotated at hm
    obtain ⟨r, _, heq⟩ := List.mem_filterMap.mp hm
    exact (mergeAnnotate_window _ _ _ _ _ heq).mpr hw

/-- C3 (counterexample): two scheduled arrivals sharing a trip id but with
different arrival times both survive the app4 merge, whose dedupe key is
trip id plus arrival time plus realtime. -/
theorem c3_trip_dedupe_counterexample :
    (mergeScheduledWithRT [mkRow "T" "12:00:00", mkRow "T" "12:05:00"]
        (fun _ => none) 43200000 19700101).countP
      (fun m => m.src.trip_id == some "T") = 2 := by decide

/-- C3 (amended): `filterArrivals` of part_002 dedupes by trip id alone, so
it emits at most one row per trip id and exactly one whenever a row with
that trip id survives its service and window filters; the app4 merge
collapses two arrivals only when trip id, arrival time and realtime all
coincide (two fully identical rows do give one output row). -/
theorem c3_trip_dedupe_amended :
    (∀ (tripToService : String → Option String) (validServiceIds : String → Bool)
        (todayEpoch now msRem : Int) (arrivals : List Arr2) (t : String),
      (filterArrivals_p2 tripToService validServiceIds todayEpoch now msRem
            arrivals).countP (fun a => a.trip_id == t) ≤ 1 ∧
        ((∃ a ∈ arrivals.filter
              (arrivalPasses_p2 tripToService validServiceIds todayEpoch now msRem),
            a.trip_id = t) →
          (filterArrivals_p2 tripToService validServiceIds todayEpoch now msRem
              arrivals).countP (fun a => a.trip_id == t) = 1)) ∧
    (mergeScheduledWithRT [mkRow "T" "12:00:00", mkRow "T" "12:00:00"]
        (fun _ => none) 43200000 19700101).length = 1 := by
  refine ⟨?_, by decide⟩
  intro tts valid te now ms arrivals t
  unfold filterArrivals_p2
  rw [jsSortStable_countP]
  have hle := dedupeTripLoop_countP_le []
    (arrivals.filter (arrivalPasses_p2 tts valid te now ms)) t
  simp only [List.contains, List.elem_eq_mem, List.not_mem_nil, decide_False,
    Bool.false_eq_true, if_false] at hle
  constructor
  · simpa using hle
  · intro hex
    have hpos := dedupeTripLoop_countP_pos []
      (arrivals.filter (arrivalPasses_p2 tts valid te now ms)) t hex (by simp)
    omega

/-- C10: the merge never invents arrivals: its output is never longer than
its input, and every output row is the annotation of exactly the schedule
row it carries in its spread copy, which is an input row whose effective
scheduled-time string is nonempty (rows with an empty or missing one are
silently dropped). -/
theorem c10_merge_never_invents :
    ∀ (rows : List SchedRow) (rtByTrip : String → Option RtTrip)
      (now : Int) (todayN : Nat),
      (mergeScheduledWithRT rows rtByTrip now todayN).length ≤ rows.length ∧
      ∀ m ∈ mergeScheduledWithRT rows rtByTrip now todayN,
        m.src ∈ rows ∧ schedStrOf m.src ≠ "" ∧
          mergeAnnotate rtByTrip now todayN m.src = some m := by
  intro rows rtByTrip now todayN
  constructor
  · unfold mergeScheduledWithRT mergeDeduped mergeWindowed mergeAnnotated
    rw [jsSortStable_length]
    calc (dedupeLoop [] ((rows.filterMap (mergeAnnotate rtByTrip now todayN)).filter
            (·.withinWindow))).length
        ≤ ((rows.filterMap (mergeAnnotate rtByTrip now todayN)).filter
            (·.withinWindow)).length := dedupeLoop_length_le [] _
      _ ≤ (rows.filterMap (mergeAnnotate rtByTrip now todayN)).length :=
          List.length_filter_le _ _
      _ ≤ rows.length := List.length_filterMap_le _ _
  · intro m hm
    unfold mergeScheduledWithRT at hm
    rw [jsSortStable_mem] at hm
    unfold mergeDeduped at hm
    have hm2 := dedupeLoop_subset _ _ _ hm
    unfold mergeWindowed at hm2
    have hm3 := (List.mem_filter.mp hm2).1
    unfold mergeAnnotated at hm3
    obtain ⟨r, hr, heq⟩ := List.mem_filterMap.mp hm3
    obtain ⟨hsrc, hne⟩ := mergeAnnotate_some_src _ _ _ _ _ heq
    subst hsrc
    exact ⟨hr, hne, heq⟩

/-- C5: a scheduled row matched to a realtime stop record that carries a
delay but no absolute arrival time gets `scheduled base + delay * 1000` as
its predicted timestamp, and records that delay in `delay_seconds`. -/
theorem c5_delay_prediction (rtByTrip : String → Option RtTrip) (now : Int)
    (todayN : Nat) (r : SchedRow) (rt : RtTrip) (st : RtStopInfo)
    (d0 : Int) (tid : String)
    (htid : jsTruthy r.trip_id = some tid)
    (hrt : rtByTrip tid = some rt)
    (hstop : findRtStop rt r = some st)
    (hau : st.arrivalUnix = none)
    (hdl : st.delay = some d0)
    (hs : schedStrOf r ≠ "") :
    ∃ m, mergeAnnotate rtByTrip now todayN r = some m ∧
      m.realtime = (timePartsToDate rt.start_date todayN (schedStrOf r)).map
        (fun b => b + d0 * 1000) ∧
      m.delay_seconds = some d0 := by
  unfold mergeAnnotate
  rw [if_neg hs]
  have hrtOf : rtTripOf rtByTrip r = some rt := by
    unfold rtTripOf
    rw [htid]
    exact hrt
  refine ⟨_, rfl, ?_, ?_⟩
  · simp [hrtOf, mergeBase, mergeRtBranch, hstop, mergeRtStopPart, hau, hdl,
      mergeDelayOnly]
  · simp [hrtOf, mergeBase, mergeRtBranch, hstop, mergeRtStopPart, hau, hdl,
      mergeDelayOnly]

/-- C5 (witness): a concrete row, trip and delay-only stop record. -/
def c5Row : SchedRow :=
  { trip_id := some "T", arrival_time := some "12:00:00", stop_id := some "S1" }

def c5Rt : RtTrip :=
  { start_date := some "20240704",
    stops := [("S1", { arrivalUnix := none, delay := some 120 })] }

def c5Lookup : String → Option RtTrip := fun s => if s = "T" then some c5Rt else none

theorem c5_delay_prediction_witness :
    (jsTruthy c5Row.trip_id = some "T" ∧ c5Lookup "T" = some c5Rt ∧
      findRtStop c5Rt c5Row = some { arrivalUnix := none, delay := some 120 } ∧
      schedStrOf c5Row ≠ "") ∧
    ∃ m, mergeAnnotate c5Lookup 43200000 19700101 c5Row = some m ∧
      m.realtime = (timePartsToDate c5Rt.start_date 19700101 (schedStrOf c5Row)).map
        (fun b => b + 120 * 1000) ∧
      m.delay_seconds = some 120 :=
  ⟨⟨by decide, by decide, by decide, by decide⟩,
    c5_delay_prediction c5Lookup 43200000 19700101 c5Row c5Rt
      { arrivalUnix := none, delay := some 120 } 120 "T"
      (by decide) (by decide) (by decide) (by decide) (by decide) (by decide)⟩

/-! ## C6: invalid coordinates in the geospatial ranking -/

def isFiniteDist (e : RankedStop) : Bool :=
  match e.distance with
  | .num _ => true
  | _ => false

/-- The distances the ranked lists of the guarded variants can carry:
`Infinity` for an invalid stop, or a finite value with a positive
denominator. -/
def goodDist (e : RankedStop) : Prop :=
  e.distance = JsNum.posInf ∨ ∃ q, e.distance = JsNum.num q ∧ 0 < q.d

lemma distLe_total_good (a b : RankedStop) (ha : goodDist a) (hb : goodDist b) :
    distLe a b = true ∨ distLe b a = true := by
  rcases ha with ha | ⟨qa, ha, hda⟩ <;> rcases hb with hb | ⟨qb, hb, hdb⟩
  · left; simp [distLe, ha, hb, jsSub]
  · right; simp [distLe, ha, hb, jsSub]
  · left; simp [distLe, ha, hb, jsSub]
  · by_cases hc : qa.n * (qb.d : Int) ≤ qb.n * (qa.d : Int)
    · left
      simp only [distLe, ha, hb, jsSub, qSub, qLe, qI, decide_eq_true_eq]
      push_cast
      nlinarith [hc]
    · right
      simp only [distLe, ha, hb, jsSub, qSub, qLe, qI, decide_eq_true_eq]
      push_cast
      nlinarith [not_le.mp hc]

lemma distLe_trans_good (a b c : RankedStop) (ha : goodDist a) (hb : goodDist b)
    (hc : goodDist c) (hab : distLe a b = true) (hbc : distLe b c = true) :
    distLe a c = true := by
  rcases hc with hcp | ⟨qc, hcn, hdc⟩
  · rcases ha with hap | ⟨qa, han, _⟩
    · simp [distLe, hap, hcp, jsSub]
    · simp [distLe, han, hcp, jsSub]
  · rcases hb with hbp | ⟨qb, hbn, hdb⟩
    · exfalso
      simp [distLe, hbp, hcn, jsSub] at hbc
    · rcases ha with hap | ⟨qa, han, hda⟩
      · exfalso
        simp [distLe, hap, hbn, jsSub] at hab
      · simp only [distLe, han, hbn, hcn, jsSub, qSub, qLe, qI,
          decide_eq_true_eq] at hab hbc ⊢
        push_cast at hab hbc ⊢
        have hdb' : (0 : Int) < (qb.d : Int) := by exact_mod_cast hdb
        nlinarith [hab, hbc, hdb', mul_le_mul_of_nonneg_right hab
          (Int.natCast_nonneg qc.d), mul_le_mul_of_nonneg_right hbc
          (Int.natCast_nonneg qa.d)]

lemma distLe_bad (a b : RankedStop) (ha : goodDist a) (hb : goodDist b)
    (hfa : isFiniteDist a = false) (hfb : isFiniteDist b = true) :
    distLe a b = false := by
  rcases ha with ha | ⟨qa, ha, _⟩
  · rcases hb with hb | ⟨qb, hb, _⟩
    · simp [isFiniteDist, hb] at hfb
    · simp [distLe, ha, hb, jsSub]
  · simp [isFiniteDist, ha] at hfa

/-- Trigonometric primitives pinned at the exactly-representable points a
concrete run touches: zero angles, the unit square root, and a rational
stand-in for pi.  Any conforming IEEE implementation agrees with these
values on those points. -/
def stubPrims : Prims where
  sinF := fun x =>
    match x with
    | .num q => if q.n = 0 then .num (qI 0) else .nan
    | _ => .nan
  cosF := fun x =>
    match x with
    | .num q => if q.n = 0 then .num (qI 1) else .nan
    | _ => .nan
  sqrtF := fun x =>
    match x with
    | .num q =>
      if q.n = 0 then .num (qI 0)
      else if q.n = (q.d : Int) then .num (qI 1) else .nan
    | _ => .nan
  atan2F := fun y x =>
    match y, x with
    | .num a, .num b => if a.n = 0 && 0 ≤ b.n then .num (qI 0) else .nan
    | _, _ => .nan
  piV := ⟨3, 1⟩

/-- A valid stop feature at the origin. -/
def featV (k : String) : Feature :=
  { AtcoCode := some k, SCN_English := some "Stop", Latitude := some "0",
    Longitude := some "0" }

/-- A stop feature whose latitude is missing entirely. -/
def featBad : Feature :=
  { AtcoCode := some "bad", SCN_English := some "Broken", Latitude := none,
    Longitude := some "0" }

def c6Features : List Feature :=
  [featBad, featV "1", featV "2", featV "3", featV "4", featV "5"]

/-- C6 (counterexample): in app.js `renderStops` a stop with a missing
latitude gets a `NaN` distance, not an infinite one, and is not excluded:
with the user at the origin and five valid stops present, the `NaN`
comparator rounds (per `SortCompare`) make every comparison a tie, the
stable sort keeps the invalid stop first, and it sits in the rendered
nearest five. -/
theorem c6_invalid_stop_counterexample :
    jsParseFloat featBad.Latitude = JsNum.nan ∧
    c6Features.countP (fun f => (jsParseFloat f.Latitude != JsNum.nan) &&
      (jsParseFloat f.Longitude != JsNum.nan)) = 5 ∧
    featBad ∈ (renderStops_appjs stubPrims (some c6Features)
        (some (JsNum.num (qI 0), JsNum.num (qI 0)))).renderedStops.map (·.feature) ∧
    (∀ e ∈ (renderStops_appjs stubPrims (some c6Features)
        (some (JsNum.num (qI 0), JsNum.num (qI 0)))).renderedStops,
      e.feature = featBad → e.distance = JsNum.nan) := by
  refine ⟨by decide, by decide, by decide, by decide⟩

/-- In the app4 candidate list a feature with an unparseable coordinate
never appears. -/
lemma rankList_app4_excludes (P : Prims) (ulat ulon : JsNum)
    (features : List Feature) (f : Feature)
    (hf : jsParseFloat f.Latitude = JsNum.nan ∨ jsParseFloat f.Longitude = JsNum.nan) :
    ∀ e ∈ rankList_app4 P ulat ulon features, e.feature ≠ f := by
  intro e he hef
  unfold rankList_app4 at he
  obtain ⟨g, _, heq⟩ := List.mem_filterMap.mp he
  simp only [] at heq
  split at heq
  · cases heq
  case isFalse hng =>
    apply hng
    have hfeat : g = f := by
      rw [← hef, ← Option.some.inj heq]
    rw [hfeat]
    exact hf

/-- The part_001/part_003 variant assigns `Infinity` to a stop with an
unparseable coordinate. -/
lemma stopsWithDistance_p1_invalid (P : Prims) (ulat ulon : JsNum)
    (features : List Feature) :
    ∀ e ∈ stopsWithDistance_p1 P ulat ulon features,
      (jsParseFloat e.feature.Latitude = JsNum.nan ∨
        jsParseFloat e.feature.Longitude = JsNum.nan) →
        e.distance = JsNum.posInf := by
  intro e he hf
  unfold stopsWithDistance_p1 at he
  obtain ⟨g, _, heq⟩ := List.mem_map.mp he
  simp only [] at heq
  split at heq
  · rw [← heq]
  case isFalse hng =>
    exfalso
    apply hng
    rw [← heq] at hf
    simpa using hf

/-- C6 (amended): the app4 `render` pipeline drops a stop with an
unparseable coordinate before ranking, so it never reaches the nearest
five; the part_001/part_003 `renderStops` variant assigns it `Infinity`
(and the `?` bearing), and whenever at least five stops get finite
distances the five survivors of its sort all have finite distances and
parseable coordinates.  app.js `renderStops` (the counterexample) has no
such guard. -/
theorem c6_invalid_coords_amended :
    (∀ (P : Prims) (ulat ulon : JsNum) (features : List Feature) (f : Feature),
      (jsParseFloat f.Latitude = JsNum.nan ∨ jsParseFloat f.Longitude = JsNum.nan) →
        (∀ e ∈ rankList_app4 P ulat ulon features, e.feature ≠ f) ∧
        (∀ e ∈ nearestStops_app4 P ulat ulon features, e.feature ≠ f)) ∧
    (∀ (P : Prims) (ulat ulon : JsNum) (features : List Feature),
      ∀ e ∈ stopsWithDistance_p1 P ulat ulon features,
        (jsParseFloat e.feature.Latitude = JsNum.nan ∨
          jsParseFloat e.feature.Longitude = JsNum.nan) →
          e.distance = JsNum.posInf) ∧
    (∀ (P : Prims) (ulat ulon : JsNum) (features : List Feature),
      (∀ e ∈ stopsWithDistance_p1 P ulat ulon features, goodDist e) →
      5 ≤ (stopsWithDistance_p1 P ulat ulon features).countP isFiniteDist →
      ∀ e ∈ nearestStops_p1 P ulat ulon features,
        isFiniteDist e = true ∧ jsParseFloat e.feature.Latitude ≠ JsNum.nan ∧
          jsParseFloat e.feature.Longitude ≠ JsNum.nan) := by
  refine ⟨?_, stopsWithDistance_p1_invalid, ?_⟩
  · intro P ulat ulon features f hf
    refine ⟨rankList_app4_excludes P ulat ulon features f hf, ?_⟩
    intro e he
    unfold nearestStops_app4 at he
    have hmem := List.mem_of_mem_take he
    rw [jsSortStable_mem] at hmem
    exact rankList_app4_excludes P ulat ulon features f hf e hmem
  · intro P ulat ulon features hgood hcount e he
    unfold nearestStops_p1 at he
    have hGsorted : ∀ x ∈ jsSortStable distLe (stopsWithDistance_p1 P ulat ulon features),
        goodDist x := by
      intro x hx
      exact hgood x ((jsSortStable_mem _ _ _).mp hx)
    have hpw := jsSortStable_pairwise distLe goodDist distLe_total_good
      distLe_trans_good _ hgood
    have hcount2 : 5 ≤ (jsSortStable distLe
        (stopsWithDistance_p1 P ulat ulon features)).countP isFiniteDist := by
      rw [jsSortStable_countP]
      exact hcount
    have hfin := pairwise_take_of_countP distLe isFiniteDist goodDist distLe_bad
      _ hGsorted hpw 5 hcount2 e he
    have hmem : e ∈ stopsWithDistance_p1 P ulat ulon features := by
      have := List.mem_of_mem_take he
      rwa [jsSortStable_mem] at this
    refine ⟨hfin, ?_, ?_⟩
    · intro hnan
      have hinf := stopsWithDistance_p1_invalid P ulat ulon features e hmem (Or.inl hnan)
      rw [isFiniteDist, hinf] at hfin
      cases hfin
    · intro hnan
      have hinf := stopsWithDistance_p1_invalid P ulat ulon features e hmem (Or.inr hnan)
      rw [isFiniteDist, hinf] at hfin
      cases hfin

/-! ## C7, C8: failure handling of the render functions -/

/-- C7 (counterexample): the `loadScheduledTrips` variant of `renderStops`
in app4.js does not abort when geolocation fails: it shows no message,
substitutes the coordinates of the first stop and still renders the stop
list. -/
theorem c7_fallback_counterexample :
    (renderStops_fallback stubPrims (some [featV "1"]) none).usedFallback = true ∧
    (renderStops_fallback stubPrims (some [featV "1"]) none).message = none ∧
    (renderStops_fallback stubPrims (some [featV "1"]) none).renderedStops.length = 1 := by
  refine ⟨by decide, by decide, by decide⟩

/-- C7 (amended): in app.js `renderStops` and in app4.js `render` a failed
geolocation request aborts the run with a user-visible message, with no
per-stop fetch and no stop-card rendering afterwards; the
`loadScheduledTrips` variant of `renderStops` in app4.js instead proceeds
with the coordinates of the first stop as a substitute location (the
counterexample). -/
theorem c7_geolocation_abort_amended :
    (∀ (P : Prims) (features : List Feature),
      renderStops_appjs P (some features) none =
        { message := some "Cannot determine location", geoRequested := true }) ∧
    (∀ (P : Prims) (features : List Feature),
      render_app4 P (some features) none =
        { message := some "Cannot determine location (allow location and reload)",
          geoRequested := true }) := by
  exact ⟨fun P features => rfl, fun P features => rfl⟩

/-- C8 (counterexample): in app.js `renderStops` the geography load is not
guarded, so its failure escapes the function as an uncaught rejection and
no error state is surfaced; geolocation and per-stop fetches do not run,
but the claimed error handling is absent. -/
theorem c8_geography_failure_counterexample :
    (renderStops_appjs stubPrims none none).uncaught = true ∧
    (renderStops_appjs stubPrims none none).message = none ∧
    (renderStops_appjs stubPrims none none).geoRequested = false ∧
    (renderStops_appjs stubPrims none none).fetchedStops = [] := by
  refine ⟨by decide, by decide, by decide, by decide⟩

/-- C8 (amended): app4.js `render` turns a geography fetch, decompression
or parse failure into the status message, requests no geolocation and
fetches no per-stop data; app.js `renderStops` also stops before
geolocation and per-stop fetches, but lets the exception escape uncaught
and shows nothing (the counterexample). -/
theorem c8_geography_failure_amended :
    (∀ (P : Prims) (geoResult : Option (JsNum × JsNum)),
      render_app4 P none geoResult =
        { message := some "Error loading stops.geojson.gz" }) ∧
    (∀ (P : Prims) (geoResult : Option (JsNum × JsNum)),
      renderStops_appjs P none geoResult = { uncaught := true }) := by
  exact ⟨fun P g => rfl, fun P g => rfl⟩
